import Mathlib

/-!
Verification development for the repository holding three data-acquisition
scripts: fatalityanalysisapi/crash.py, freeenergyapi/electric.py and
nasasatellitewildfire/wildfire_report.py.

The definitions below are shallow embeddings of the source functions.
JSON values are modelled by the inductive JVal; numeric literals are
modelled as integers (all settled claims move numeric values verbatim, so
they are insensitive to the numeric representation).  Network traffic is
modelled by passing the remote responses in as explicit arguments, and a
trace component records which requests were issued.
-/

/-- Dynamic value model for parsed JSON payloads and data-frame cells.
The date constructor models a pandas timestamp built from year, month and
day components. -/
inductive JVal where
  | null : JVal
  | boolV (b : Bool) : JVal
  | num (n : Int) : JVal
  | str (s : String) : JVal
  | arr (xs : List JVal) : JVal
  | obj (kvs : List (String × JVal)) : JVal
  | date (y m d : Int) : JVal

/-- First-occurrence lookup in a JSON object field list, as Python dict
access (dict keys are unique, so first occurrence is the value). -/
def lookupJ : List (String × JVal) → String → Option JVal
  | [], _ => none
  | (k, v) :: rest, key => if k == key then some v else lookupJ rest key

/-- Python dict assignment d[k] = v: replace the value in place when the
key is present, append the pair otherwise. -/
def setKey : List (String × JVal) → String → JVal → List (String × JVal)
  | [], k, v => [(k, v)]
  | (k', v') :: rest, k, v =>
    if k' == k then (k, v) :: rest else (k', v') :: setKey rest k v

/-! ## crash.py: retrying request executor (_request_json) -/

/-- One transport-level outcome of a single HTTP attempt: either the
attempt failed in transport (timeout, malformed body, non-2xx raised by
raise_for_status or a json decode error), or it produced parsed JSON. -/
inductive Attempt where
  | transportFail (msg : String) : Attempt
  | ok (body : JVal) : Attempt

/-- The two failure shapes a single attempt can take inside the try
block of _request_json. -/
inductive ReqErr where
  | transport (msg : String) : ReqErr
  | arcgis (payload : JVal) : ReqErr

/-- Terminal failure of _request_json: the RuntimeError raised after the
loop, recording the attempt count and the last underlying error. -/
inductive AcqFail where
  | exhausted (attempts : Nat) (last : Option ReqErr) : AcqFail

/-- The error value carried by the ArcGIS logical-error branch: present
exactly when the parsed body is a JSON object with an error key. -/
def getErr : JVal → Option JVal
  | JVal.obj kvs => lookupJ kvs "error"
  | _ => none

/-- One iteration of the try block of _request_json: a transport failure
raises, and a well-formed body with an error key raises RuntimeError
(which the enclosing except clause also catches). -/
def attemptOutcome : Attempt → Except ReqErr JVal
  | Attempt.transportFail m => Except.error (ReqErr.transport m)
  | Attempt.ok body =>
    match getErr body with
    | some payload => Except.error (ReqErr.arcgis payload)
    | none => Except.ok body

/-- The retry loop of _request_json.  fuel is the remaining attempt
budget, i the index of the next attempt, last the last error seen.  The
second component of the result is the number of attempts consumed. -/
def runReq (f : Nat → Attempt) : Nat → Nat → Option ReqErr → Except AcqFail JVal × Nat
  | 0, i, last => (Except.error (AcqFail.exhausted i last), i)
  | fuel + 1, i, last =>
    match attemptOutcome (f i) with
    | Except.ok j => (Except.ok j, i + 1)
    | Except.error e => runReq f fuel (i + 1) (some e)

/-- _request_json from crash.py (source name has a leading underscore):
drives the attempt stream through the retry loop, with the source default
of five attempts. -/
def request_json (f : Nat → Attempt) (retries : Nat := 5) : Except AcqFail JVal × Nat :=
  runReq f retries 0 none

/-! ## crash.py: count resolver (get_count) -/

/-- Python int conversion on the JSON values that can appear in a count
field; values int rejects give none (a raised ValueError). -/
def pyInt : JVal → Option Int
  | JVal.num n => some n
  | JVal.boolV b => some (if b then 1 else 0)
  | JVal.str s => s.toInt?
  | _ => none

/-- get_count from crash.py: int(data.get("count", 0)) on the parsed
response.  Non-object responses raise attribute errors, modelled as an
error value. -/
def get_count (data : JVal) : Except String Int :=
  match data with
  | JVal.obj kvs =>
    match pyInt ((lookupJ kvs "count").getD (JVal.num 0)) with
    | some n => Except.ok n
    | none => Except.error "ValueError"
  | _ => Except.error "AttributeError"

/-! ## crash.py: paginated enumerator (fetch_all_features) -/

/-- Per-service page size ceiling from crash.py. -/
def MAX_RECORD_COUNT : Nat := 2000

/-- Ceiling division on naturals, the value of math.ceil(total / pageSize). -/
def ceilNat (a b : Nat) : Nat := (a + b - 1) / b

/-- The query parameters of one page request issued by fetch_all_features.
The source sends resultRecordCount and resultOffset as decimal strings;
they are kept numeric here, the serialization being injective. -/
structure PageParams where
  fmt : String
  whereClause : String
  outFields : String
  returnGeometry : String
  outSR : String
  resultRecordCount : Nat
  resultOffset : Nat
  orderByFields : String
deriving DecidableEq

/-- The parameter dict built per page inside the loop of
fetch_all_features. -/
def pageParams (whereC outFields : String) (offset : Nat) : PageParams :=
  { fmt := "json"
    whereClause := whereC
    outFields := outFields
    returnGeometry := "true"
    outSR := "4326"
    resultRecordCount := MAX_RECORD_COUNT
    resultOffset := offset
    orderByFields := "OBJECTID" }

/-- A raw ArcGIS feature: the attributes dict and the optional geometry
dict, as consumed by features_to_df. -/
structure Feature where
  attributes : List (String × JVal)
  geometry : Option (List (String × JVal))

/-- fetch_all_features from crash.py, with the network abstracted: count
is the total reported by get_count, and pageFeatures maps each issued
request to the feature list of its response.  Returns the accumulated
features together with the trace of page requests issued. -/
def fetch_all_features (whereC outFields : String) (count : Nat)
    (pageFeatures : PageParams → List Feature) : List Feature × List PageParams :=
  if count = 0 then ([], [])
  else
    let pages := ceilNat count MAX_RECORD_COUNT
    let reqs := (List.range pages).map (fun i => pageParams whereC outFields (i * MAX_RECORD_COUNT))
    (reqs.foldl (fun acc r => acc ++ pageFeatures r) [], reqs)

/-! ## crash.py: record normalizer (features_to_df) -/

/-- Gregorian leap year rule. -/
def isLeap (y : Int) : Bool := y % 4 == 0 && (y % 100 != 0 || y % 400 == 0)

/-- Days in a Gregorian month. -/
def daysInMonth (y m : Int) : Int :=
  if m == 2 then (if isLeap y then 29 else 28)
  else if m == 4 || m == 6 || m == 9 || m == 11 then 30
  else 31

/-- Whether year, month and day form a valid calendar date.  This models
the success condition of pd.to_datetime with errors coerce; the bounded
representable range of pandas timestamps is not modelled. -/
def validDate (y m d : Int) : Bool :=
  decide (1 ≤ m ∧ m ≤ 12 ∧ 1 ≤ d ∧ d ≤ daysInMonth y m)

/-- The per-row value of the crash_date column: a timestamp when the
three integer components form a valid date, null (NaT) otherwise, also
when a component is missing or non-integer in that row. -/
def mkCrashDate (row : List (String × JVal)) : JVal :=
  match lookupJ row "YEAR", lookupJ row "MONTH", lookupJ row "DAY" with
  | some (JVal.num y), some (JVal.num m), some (JVal.num d) =>
    if validDate y m d then JVal.date y m d else JVal.null
  | _, _, _ => JVal.null

/-- The per-feature body of the loop in features_to_df: copy the
attributes and, when the geometry dict has both an x and a y key, project
them into lon and lat fields. -/
def rowOfFeature (f : Feature) : List (String × JVal) :=
  let geom := f.geometry.getD []
  match lookupJ geom "x", lookupJ geom "y" with
  | some xv, some yv => setKey (setKey f.attributes "lon" xv) "lat" yv
  | _, _ => f.attributes

/-- Whether a column name is present in the data frame built from the
rows (pandas columns are the union of the row key sets). -/
def hasCol (rows : List (List (String × JVal))) (c : String) : Bool :=
  rows.any (fun r => r.any (fun kv => kv.1 == c))

/-- features_to_df from crash.py: one row per feature, plus a synthesized
crash_date column when the YEAR, MONTH and DAY columns all exist. -/
def features_to_df (features : List Feature) : List (List (String × JVal)) :=
  let rows := features.map rowOfFeature
  if hasCol rows "YEAR" && hasCol rows "MONTH" && hasCol rows "DAY" then
    rows.map (fun r => setKey r "crash_date" (mkCrashDate r))
  else rows

/-! ## String helpers.  The scripts only ever case-fold and trim ASCII
data, so the Python string methods are modelled character-wise with the
ASCII folding of Char.toLower and Char.toUpper. -/

/-- Python str.lower, character-wise. -/
def pyLower (s : String) : String := String.mk (s.toList.map Char.toLower)

/-- Python str.upper, character-wise. -/
def pyUpper (s : String) : String := String.mk (s.toList.map Char.toUpper)

/-- The whitespace class of Python str.strip and str.lstrip. -/
def isPySpace (c : Char) : Bool :=
  c == ' ' || c == '\t' || c == '\n' || c == '\r' || c == Char.ofNat 11 || c == Char.ofNat 12

/-- Python str.lstrip with no argument. -/
def pyLstrip (s : String) : String := String.mk (s.toList.dropWhile isPySpace)

/-- Python str.strip with no argument. -/
def pyStrip (s : String) : String :=
  String.mk (((s.toList.dropWhile isPySpace).reverse.dropWhile isPySpace).reverse)

/-- Whether a line is blank (empty up to whitespace). -/
def blankLine (l : List Char) : Bool := (l.dropWhile isPySpace).isEmpty

/-- Split a character list at newline characters, as Python
str.split with a newline separator. -/
def splitOnNl : List Char → List (List Char)
  | [] => [[]]
  | c :: t =>
    let r := splitOnNl t
    if c == '\n' then [] :: r
    else
      match r with
      | h :: t' => (c :: h) :: t'
      | [] => [[c]]

/-! ## electric.py: facet and column resolution -/

/-- A character kept by the regex class of normalize_key (the source
lowercases first, so letters there are already lowercase). -/
def isKeptChar (c : Char) : Bool :=
  decide (('a' ≤ c ∧ c ≤ 'z') ∨ ('0' ≤ c ∧ c ≤ '9'))

/-- normalize_key from electric.py: lowercase, then drop every character
outside lowercase letters and digits. -/
def normalize_key (s : String) : String :=
  String.mk ((pyLower s).toList.filter isKeptChar)

/-- Character-list version of Python string containment: needle a
contiguous leading segment of the haystack. -/
def isPrefixCh : List Char → List Char → Bool
  | [], _ => true
  | _ :: _, [] => false
  | a :: as, b :: bs => a == b && isPrefixCh as bs

/-- Character-list version of Python string containment: needle a
contiguous segment anywhere in the haystack. -/
def containsCh (needle : List Char) : List Char → Bool
  | [] => isPrefixCh needle []
  | c :: t => isPrefixCh needle (c :: t) || containsCh needle t

/-- Python substring test: needle in hay. -/
def strContains (hay needle : String) : Bool :=
  containsCh needle.toList hay.toList

/-- The ordered preference list of data-field names in
pick_generation_data_column. -/
def preferredGenCols : List String :=
  ["net-generation", "net_generation", "netgeneration", "generation", "gen", "value"]

/-- The exact-normalized-match loop of pick_generation_data_column: outer
loop over preference entries, inner loop over the (key, normalized key)
pairs. -/
def genExactLoop (norm_keys : List (String × String)) : List String → Option String
  | [] => none
  | pn :: rest =>
    match norm_keys.find? (fun kn => kn.2 == pn) with
    | some kn => some kn.1
    | none => genExactLoop norm_keys rest

/-- The substring-match loop of pick_generation_data_column: a nonempty
preference entry contained in the normalized key. -/
def genSubLoop (norm_keys : List (String × String)) : List String → Option String
  | [] => none
  | pn :: rest =>
    match norm_keys.find? (fun kn => pn != "" && strContains kn.2 pn) with
    | some kn => some kn.1
    | none => genSubLoop norm_keys rest

/-- pick_generation_data_column from electric.py, over the key list of
the metadata data object (an empty object returns the literal value). -/
def pick_generation_data_column (keys : List String) : String :=
  match keys with
  | [] => "value"
  | k0 :: _ =>
    let norm_keys := keys.map (fun k => (k, normalize_key k))
    let pref_norm := preferredGenCols.map normalize_key
    match genExactLoop norm_keys pref_norm with
    | some k => k
    | none =>
      match genSubLoop norm_keys pref_norm with
      | some k => k
      | none =>
        match norm_keys.find? (fun kn => strContains kn.2 "gen") with
        | some kn => kn.1
        | none => k0

/-- One facet value from the facet metadata endpoint: id, name and alias
fields, each possibly absent or null. -/
structure Facet where
  id : Option String
  name : Option String
  aliasF : Option String
deriving DecidableEq

/-- The space-joined lowercased id, name and alias blob that
choose_facet_id substring-matches against. -/
def facetBlob (f : Facet) : String :=
  pyLower (String.intercalate " " [f.id.getD "", f.name.getD "", f.aliasF.getD ""])

/-- The first loop of choose_facet_id: scan candidates in list order and
return the id of the first one whose uppercased id equals any entry of
the uppercased preference list. -/
def facetExactLoop (prefer_ids_u : List String) : List Facet → Option (Option String)
  | [] => none
  | f :: rest =>
    if prefer_ids_u.contains (pyUpper (f.id.getD "")) then some f.id
    else facetExactLoop prefer_ids_u rest

/-- The second loop of choose_facet_id: scan candidates in list order and
return the id of the first one whose blob contains any needle. -/
def facetSubLoop (needles : List String) : List Facet → Option (Option String)
  | [] => none
  | f :: rest =>
    if needles.any (fun n => strContains (facetBlob f) n) then some f.id
    else facetSubLoop needles rest

/-- choose_facet_id from electric.py.  The outer option is the no-match
result (the Python return None); the inner option is the id field of the
chosen candidate, itself possibly null. -/
def choose_facet_id (facet_values : List Facet) (prefer_ids : List String)
    (prefer_name_contains : List String) : Option (Option String) :=
  if facet_values.isEmpty then none
  else
    match facetExactLoop (prefer_ids.map pyUpper) facet_values with
    | some r => some r
    | none =>
      match facetSubLoop (prefer_name_contains.map pyLower) facet_values with
      | some r => some r
      | none => none

/-- Resolver following the words of claim C2: the exact stage iterates
the exact-preference list in preference order, taking the first candidate
matching the current preference; the substring stage iterates the
needles in preference order, first needle wins, first matching candidate
wins.  Stated only for comparison against choose_facet_id. -/
def exactPrefLoop (facet_values : List Facet) : List String → Option (Option String)
  | [] => none
  | p :: ps =>
    match facet_values.find? (fun f => pyUpper (f.id.getD "") == pyUpper p) with
    | some f => some f.id
    | none => exactPrefLoop facet_values ps

/-- Substring stage of the claim-order resolver: needles outermost. -/
def subPrefLoop (facet_values : List Facet) : List String → Option (Option String)
  | [] => none
  | n :: ns =>
    match facet_values.find? (fun f => strContains (facetBlob f) (pyLower n)) with
    | some f => some f.id
    | none => subPrefLoop facet_values ns

/-- The resolver the words of claim C2 describe (preference-list order
outermost in both stages). -/
def resolve_claimOrder (facet_values : List Facet) (prefer_ids : List String)
    (prefer_name_contains : List String) : Option (Option String) :=
  match exactPrefLoop facet_values prefer_ids with
  | some r => some r
  | none => subPrefLoop facet_values prefer_name_contains

/-- Lexicographic comparison of character lists by code point, the order
of the argument-free JS Array sort on these keys. -/
def charListLe : List Char → List Char → Bool
  | [], _ => true
  | _ :: _, [] => false
  | a :: as, b :: bs => if a = b then charListLe as bs else decide (a < b)

/-- String comparison used to sort the merged period keys ascending. -/
def strLe (a b : String) : Bool := charListLe a.toList b.toList

/-! ## electric.py: the merge-by-period aggregator embedded in the
dashboard script of build_dashboard -/

/-- One row of the retail-sales series in data.json, as read by the
embedded script: the period key and the three value fields, absent
fields modelled as none (the script coalesces them to null). -/
structure RetailRow where
  period : String
  sales : Option JVal
  revenue : Option JVal
  price : Option JVal

/-- One row of the generation series in data.json. -/
structure GenRow where
  period : String
  generation : Option JVal

/-- One merged dashboard row: every field explicit, null as none. -/
structure MRow where
  period : String
  sales : Option JVal
  revenue : Option JVal
  price : Option JVal
  generation : Option JVal

/-- JS Map.set on an association list: overwrite in place when the key
exists (keeping its position), append otherwise. -/
def mapSet : List (String × MRow) → String → MRow → List (String × MRow)
  | [], k, v => [(k, v)]
  | (k', v') :: rest, k, v =>
    if k' == k then (k, v) :: rest else (k', v') :: mapSet rest k v

/-- JS Map.get on an association list. -/
def mapGet : List (String × MRow) → String → Option MRow
  | [], _ => none
  | (k', v') :: rest, k => if k' == k then some v' else mapGet rest k

/-- The retail half of the merge loop: one Map.set per retail row, the
generation field initialised to null. -/
def retailStep (m : List (String × MRow)) (r : RetailRow) : List (String × MRow) :=
  mapSet m r.period ⟨r.period, r.sales, r.revenue, r.price, none⟩

/-- The generation half of the merge loop: fetch the current row for the
period (or a fresh all-null row) and set its generation field. -/
def genStep (m : List (String × MRow)) (g : GenRow) : List (String × MRow) :=
  let cur := (mapGet m g.period).getD ⟨g.period, none, none, none, none⟩
  mapSet m g.period { cur with generation := g.generation }

/-- The merge-by-period block of the embedded dashboard script: build the
byPeriod map from the retail rows then the generation rows, sort the
keys ascending, and read the map back in sorted key order. -/
def mergeByPeriod (retail : List RetailRow) (gen : List GenRow) : List MRow :=
  let m1 := retail.foldl retailStep []
  let m2 := gen.foldl genStep m1
  let periods := List.insertionSort (fun a b => strLe a b = true) (m2.map Prod.fst)
  periods.filterMap (mapGet m2)

/-! ## wildfire_report.py: fetch_fires -/

/-- FIRMS area endpoint constant. -/
def FIRMS_AREA_API : String := "https://firms.modaps.eosdis.nasa.gov/api/area/csv"

/-- build_url from wildfire_report.py (a falsy date, absent or empty,
leaves the base URL unchanged). -/
def build_url (mapkey source area : String) (days : Int) (date : Option String) : String :=
  let base := FIRMS_AREA_API ++ "/" ++ mapkey ++ "/" ++ source ++ "/" ++ area ++ "/" ++ toString days
  match date with
  | some d => if d.toList.isEmpty then base else base ++ "/" ++ d
  | none => base

/-- The guard of fetch_fires against HTML or JSON bodies. -/
def looksNonCsv (text : String) : Bool :=
  isPrefixCh [Char.ofNat 60] (pyLstrip text).toList || isPrefixCh [Char.ofNat 123] (pyStrip text).toList

/-- The parsed FIRMS CSV: header line plus data lines. -/
structure FiresDf where
  header : String
  dataRows : List String
deriving DecidableEq

/-- pd.read_csv on the response text, modelled line-wise: blank lines are
skipped, a body with no lines at all fails to parse, the first remaining
line is the header and the rest are the data rows (df.empty is the
emptiness of the data rows). -/
def parseFiresCsv (text : String) : Except String FiresDf :=
  match ((splitOnNl text.toList).filter (fun l => !(blankLine l))).map (fun l => String.mk l) with
  | [] => Except.error "No columns to parse from file"
  | h :: t => Except.ok ⟨h, t⟩

/-- fetch_fires from wildfire_report.py, with the network abstracted:
body is the text of the HTTP response.  The second component is the
request trace: none when no request was issued, some url when the GET
for that URL went out. -/
def fetch_fires (mapkey source : String) (bbox : Option String) (days : Int)
    (date : Option String) (body : String) : Except String FiresDf × Option String :=
  if days < 1 ∨ days > 10 then
    (Except.error "--days must be between 1 and 10 (FIRMS limit).", none)
  else
    let area := match bbox with
      | none => "world"
      | some b => if b.toList.isEmpty then "world" else b
    let url := build_url mapkey source area days date
    let res : Except String FiresDf :=
      if looksNonCsv body then
        Except.error "FIRMS returned a non-CSV response. Check your MAP_KEY/source/params."
      else
        match parseFiresCsv body with
        | Except.error e => Except.error ("CSV parse error: " ++ e)
        | Except.ok df =>
          if df.dataRows.isEmpty then
            Except.error "No detections returned. Try increasing --days or changing --source/--bbox."
          else Except.ok df
    (res, some url)

/-! ## Helper lemmas for the retry loop -/

/-- Stepping the retry loop past one failing attempt. -/
theorem runReq_step_error (f : Nat → Attempt) (fuel i : Nat) (last : Option ReqErr) (e : ReqErr)
    (h : attemptOutcome (f i) = Except.error e) :
    runReq f (fuel + 1) i last = runReq f fuel (i + 1) (some e) := by
  simp [runReq, h]

/-- Stepping the retry loop through one succeeding attempt. -/
theorem runReq_step_ok (f : Nat → Attempt) (fuel i : Nat) (last : Option ReqErr) (j : JVal)
    (h : attemptOutcome (f i) = Except.ok j) :
    runReq f (fuel + 1) i last = (Except.ok j, i + 1) := by
  simp [runReq, h]

/-- The retry loop returns the first success, after any shorter run of
failing attempts, consuming one attempt per failure plus the success. -/
theorem runReq_ok_of_failures (f : Nat → Attempt) (j : JVal) :
    ∀ (N fuel i : Nat) (last : Option ReqErr), N < fuel →
      (∀ k, k < N → ∃ e, attemptOutcome (f (i + k)) = Except.error e) →
      attemptOutcome (f (i + N)) = Except.ok j →
      runReq f fuel i last = (Except.ok j, i + N + 1) := by
  intro N
  induction N with
  | zero =>
    intro fuel i last hlt hfails hok
    obtain ⟨m, rfl⟩ : ∃ m, fuel = m + 1 := ⟨fuel - 1, by omega⟩
    rw [runReq_step_ok f m i last j (by simpa using hok)]
  | succ N ih =>
    intro fuel i last hlt hfails hok
    obtain ⟨m, rfl⟩ : ∃ m, fuel = m + 1 := ⟨fuel - 1, by omega⟩
    obtain ⟨e, he⟩ := hfails 0 (Nat.succ_pos N)
    rw [runReq_step_error f m i last e (by simpa using he)]
    have h2 : ∀ k, k < N → ∃ e2, attemptOutcome (f (i + 1 + k)) = Except.error e2 := by
      intro k hk
      have h3 := hfails (k + 1) (by omega)
      have heq : i + (k + 1) = i + 1 + k := by omega
      rw [heq] at h3
      exact h3
    have hok2 : attemptOutcome (f (i + 1 + N)) = Except.ok j := by
      have heq : i + 1 + N = i + (N + 1) := by omega
      rw [heq]
      exact hok
    rw [ih m (i + 1) (some e) (by omega) h2 hok2]
    exact congrArg (Prod.mk (Except.ok j)) (by omega)

/-- The retry loop, facing only failures, exhausts its budget and raises
the terminal error wrapping the last per-attempt failure. -/
theorem runReq_exhausted (f : Nat → Attempt) (errs : Nat → ReqErr) :
    ∀ (fuel i : Nat) (last : Option ReqErr), 0 < fuel →
      (∀ k, k < fuel → attemptOutcome (f (i + k)) = Except.error (errs (i + k))) →
      runReq f fuel i last =
        (Except.error (AcqFail.exhausted (i + fuel) (some (errs (i + fuel - 1)))), i + fuel) := by
  intro fuel
  induction fuel with
  | zero => intro i last h; omega
  | succ m ih =>
    intro i last _ hfails
    have he := hfails 0 (Nat.succ_pos m)
    rw [runReq_step_error f m i last (errs i) (by simpa using he)]
    rcases Nat.eq_zero_or_pos m with hm | hm
    · subst hm
      simp [runReq]
    · have h2 : ∀ k, k < m → attemptOutcome (f (i + 1 + k)) = Except.error (errs (i + 1 + k)) := by
        intro k hk
        have h3 := hfails (k + 1) (by omega)
        have heq : i + (k + 1) = i + 1 + k := by omega
        rw [heq] at h3
        exact h3
      rw [ih (i + 1) (some (errs i)) hm h2]
      have h3 : i + 1 + m = i + (m + 1) := by omega
      rw [h3]

/-- C6: for every request facing N consecutive transport failures with N
strictly below the attempt ceiling and then one success, _request_json
returns the successful body after N + 1 attempts and raises nothing; and
for every request whose attempts all fail, it raises the terminal
RuntimeError wrapping the last underlying failure after consuming the
whole fixed attempt budget. -/
theorem request_json_retry_semantics (f : Nat → Attempt) (retries N : Nat) (j : JVal)
    (msgs : Nat → String) (errs : Nat → ReqErr) :
    (N < retries → (∀ k, k < N → f k = Attempt.transportFail (msgs k)) →
      attemptOutcome (f N) = Except.ok j →
      request_json f retries = (Except.ok j, N + 1))
    ∧ (0 < retries → (∀ k, k < retries → attemptOutcome (f k) = Except.error (errs k)) →
      request_json f retries =
        (Except.error (AcqFail.exhausted retries (some (errs (retries - 1)))), retries)) := by
  constructor
  · intro hlt hfails hok
    have h1 : ∀ k, k < N → ∃ e, attemptOutcome (f (0 + k)) = Except.error e := by
      intro k hk
      refine ⟨ReqErr.transport (msgs k), ?_⟩
      simp [hfails k hk, attemptOutcome]
    have h2 := runReq_ok_of_failures f j N retries 0 none hlt h1 (by simpa using hok)
    simpa [request_json] using h2
  · intro hpos hfails
    have h1 : ∀ k, k < retries → attemptOutcome (f (0 + k)) = Except.error (errs (0 + k)) := by
      intro k hk
      simpa using hfails k hk
    have h2 := runReq_exhausted f errs retries 0 none hpos h1
    simpa [request_json] using h2

/-- A concrete attempt stream: two timeouts, then a good response. -/
def c6Seq : Nat → Attempt
  | 0 => Attempt.transportFail "timeout"
  | 1 => Attempt.transportFail "timeout"
  | _ => Attempt.ok (JVal.obj [("count", JVal.num 7)])

/-- Witness for C6 at the concrete stream with two timeouts and then a
success, under the source default of five attempts. -/
theorem request_json_retry_semantics_witness :
    request_json c6Seq 5 = (Except.ok (JVal.obj [("count", JVal.num 7)]), 3) := by
  refine (request_json_retry_semantics c6Seq 5 2 (JVal.obj [("count", JVal.num 7)])
    (fun _ => "timeout") (fun _ => ReqErr.transport "timeout")).1 (by omega) ?_ rfl
  intro k hk
  match k with
  | 0 => rfl
  | 1 => rfl
  | k + 2 => exact absurd hk (by omega)

/-- A concrete attempt stream: a well-formed response carrying a service
error payload, then a good response. -/
def c1Seq : Nat → Attempt
  | 0 => Attempt.ok (JVal.obj [("error", JVal.str "Invalid token")])
  | _ => Attempt.ok (JVal.obj [("features", JVal.arr [])])

/-- C1 counterexample: the first attempt is a well-formed JSON response
carrying the service error payload, yet _request_json does not fail
immediately: it consumes a second attempt (a retry) and returns the
successful result of that second attempt. -/
theorem request_json_service_error_retried_cex :
    attemptOutcome (c1Seq 0) = Except.error (ReqErr.arcgis (JVal.str "Invalid token"))
    ∧ request_json c1Seq 5 = (Except.ok (JVal.obj [("features", JVal.arr [])]), 2) :=
  ⟨rfl, rfl⟩

/-- C1 amended: a response that is well-formed JSON but carries a
service-reported error payload is retried exactly like a transport
failure: after any run of such service errors strictly shorter than the
attempt ceiling, a subsequent successful attempt is returned (so the
executor does not fail immediately on service errors, and only
exhausting the budget raises). -/
theorem request_json_service_errors_retried (f : Nat → Attempt) (retries N : Nat) (j : JVal)
    (payloads : Nat → JVal) (hlt : N < retries)
    (hfails : ∀ k, k < N → ∃ body, f k = Attempt.ok body ∧ getErr body = some (payloads k))
    (hok : attemptOutcome (f N) = Except.ok j) :
    request_json f retries = (Except.ok j, N + 1) := by
  have h1 : ∀ k, k < N → ∃ e, attemptOutcome (f (0 + k)) = Except.error e := by
    intro k hk
    obtain ⟨body, hb, he⟩ := hfails k hk
    exact ⟨ReqErr.arcgis (payloads k), by simp [hb, attemptOutcome, he]⟩
  have h2 := runReq_ok_of_failures f j N retries 0 none hlt h1 (by simpa using hok)
  simpa [request_json] using h2

/-- Witness for the amended C1 at the concrete stream whose first
attempt carries a service error payload. -/
theorem request_json_service_errors_retried_witness :
    request_json c1Seq 5 = (Except.ok (JVal.obj [("features", JVal.arr [])]), 2) := by
  refine request_json_service_errors_retried c1Seq 5 1 (JVal.obj [("features", JVal.arr [])])
    (fun _ => JVal.str "Invalid token") (by omega) ?_ rfl
  intro k hk
  have hk0 : k = 0 := by omega
  subst hk0
  exact ⟨JVal.obj [("error", JVal.str "Invalid token")], rfl, rfl⟩

/-- C9: get_count returns 0 (not an error) when the count field is
missing from the service response, and returns 0 when the service
reports a zero count for an empty match set. -/
theorem get_count_missing_or_zero (kvs : List (String × JVal)) :
    (lookupJ kvs "count" = none → get_count (JVal.obj kvs) = Except.ok 0)
    ∧ (lookupJ kvs "count" = some (JVal.num 0) → get_count (JVal.obj kvs) = Except.ok 0) := by
  constructor
  · intro h
    simp [get_count, h, pyInt]
  · intro h
    simp [get_count, h, pyInt]

/-- Witness for C9 at the empty response object and at the zero-count
response object. -/
theorem get_count_missing_or_zero_witness :
    get_count (JVal.obj []) = Except.ok 0
    ∧ get_count (JVal.obj [("count", JVal.num 0)]) = Except.ok 0 :=
  ⟨(get_count_missing_or_zero []).1 rfl,
   (get_count_missing_or_zero [("count", JVal.num 0)]).2 rfl⟩

/-- C10: a day range below 1 or above 10 makes fetch_fires raise the
ValueError immediately with no request issued, and a request is issued
exactly when the day range lies in the closed interval from 1 to 10. -/
theorem fetch_fires_days_guard (mapkey source : String) (bbox : Option String) (days : Int)
    (date : Option String) (body : String) :
    ((days < 1 ∨ days > 10) →
      fetch_fires mapkey source bbox days date body =
        (Except.error "--days must be between 1 and 10 (FIRMS limit).", none))
    ∧ ((fetch_fires mapkey source bbox days date body).2.isSome ↔ (1 ≤ days ∧ days ≤ 10)) := by
  constructor
  · intro h
    unfold fetch_fires
    rw [if_pos h]
  · by_cases h : days < 1 ∨ days > 10
    · unfold fetch_fires
      rw [if_pos h]
      simp
      omega
    · unfold fetch_fires
      rw [if_neg h]
      simp
      omega

/-- Witness for C10: at zero days the guard fires with no request; at
three days a request is issued. -/
theorem fetch_fires_days_guard_witness :
    fetch_fires "KEY" "VIIRS_SNPP_NRT" none 0 none "x" =
      (Except.error "--days must be between 1 and 10 (FIRMS limit).", none)
    ∧ ((fetch_fires "KEY" "VIIRS_SNPP_NRT" none 3 none "x").2.isSome ↔ (1 ≤ (3 : Int) ∧ (3 : Int) ≤ 10)) :=
  ⟨(fetch_fires_days_guard "KEY" "VIIRS_SNPP_NRT" none 0 none "x").1 (by omega),
   (fetch_fires_days_guard "KEY" "VIIRS_SNPP_NRT" none 3 none "x").2⟩

/-- C4: when the service reports a positive total, fetch_all_features
issues exactly ceil(total / pageSize) page requests, the offsets of the
issued requests form the gap-free and repeat-free arithmetic sequence 0,
pageSize, 2 * pageSize, and every issued request carries the stable
ordering key OBJECTID.  The final two conjuncts pin ceilNat down as the
true ceiling of the division. -/
theorem fetch_all_features_pagination (whereC outFields : String) (count : Nat)
    (pageFeatures : PageParams → List Feature) (hpos : 0 < count) :
    ((fetch_all_features whereC outFields count pageFeatures).2).length =
      ceilNat count MAX_RECORD_COUNT
    ∧ (∀ i, ((fetch_all_features whereC outFields count pageFeatures).2)[i]? =
        if i < ceilNat count MAX_RECORD_COUNT
        then some (pageParams whereC outFields (i * MAX_RECORD_COUNT)) else none)
    ∧ (∀ r, r ∈ (fetch_all_features whereC outFields count pageFeatures).2 →
        r.orderByFields = "OBJECTID")
    ∧ count ≤ (ceilNat count MAX_RECORD_COUNT) * MAX_RECORD_COUNT
    ∧ MAX_RECORD_COUNT * (ceilNat count MAX_RECORD_COUNT - 1) < count := by
  have hreq : (fetch_all_features whereC outFields count pageFeatures).2 =
      (List.range (ceilNat count MAX_RECORD_COUNT)).map
        (fun i => pageParams whereC outFields (i * MAX_RECORD_COUNT)) := by
    unfold fetch_all_features
    rw [if_neg (by omega)]
  refine ⟨?_, ?_, ?_, ?_, ?_⟩
  · rw [hreq]
    simp
  · intro i
    rw [hreq, List.getElem?_map]
    by_cases hi : i < ceilNat count MAX_RECORD_COUNT
    · rw [List.getElem?_range hi, if_pos hi]
      rfl
    · rw [List.getElem?_eq_none (by simpa using Nat.le_of_not_lt hi), if_neg hi]
      rfl
  · intro r hr
    rw [hreq] at hr
    simp only [List.mem_map] at hr
    obtain ⟨i, _, rfl⟩ := hr
    rfl
  · unfold ceilNat MAX_RECORD_COUNT
    omega
  · unfold ceilNat MAX_RECORD_COUNT
    omega

/-- Witness for C4 at a concrete positive total spanning three pages. -/
theorem fetch_all_features_pagination_witness :
    ((fetch_all_features "STATE = 4 AND YEAR = 2022" "*" 4001 (fun _ => [])).2).length =
      ceilNat 4001 MAX_RECORD_COUNT :=
  (fetch_all_features_pagination "STATE = 4 AND YEAR = 2022" "*" 4001 (fun _ => [])
    (by decide)).1

/-! ## Helper lemmas for the facet resolver loops -/

/-- The exact-match loop of choose_facet_id is the first candidate, in
candidate order, whose uppercased id lies in the uppercased preference
list. -/
theorem facetExactLoop_eq_find (pu : List String) (fv : List Facet) :
    facetExactLoop pu fv =
      Option.map Facet.id (fv.find? (fun f => pu.contains (pyUpper (f.id.getD "")))) := by
  induction fv with
  | nil => rfl
  | cons f rest ih =>
    simp only [facetExactLoop, List.find?]
    cases hb : pu.contains (pyUpper (f.id.getD "")) with
    | false => exact ih
    | true => rfl

/-- The substring-match loop of choose_facet_id is the first candidate,
in candidate order, whose blob contains any needle. -/
theorem facetSubLoop_eq_find (needles : List String) (fv : List Facet) :
    facetSubLoop needles fv =
      Option.map Facet.id
        (fv.find? (fun f => needles.any (fun n => strContains (facetBlob f) n))) := by
  induction fv with
  | nil => rfl
  | cons f rest ih =>
    simp only [facetSubLoop, List.find?]
    cases hb : needles.any (fun n => strContains (facetBlob f) n) with
    | false => exact ih
    | true => rfl

/-- C2 counterexample: choose_facet_id scans candidates, not the
preference lists, in the outer loop.  With candidates CA then AZ and
exact preferences AZ then CA the code returns CA while the claimed
preference-list order returns AZ; with the substring stage, candidate X1
matching the later needle beats candidate X2 matching the earlier
needle. -/
theorem choose_facet_id_candidate_order_cex :
    choose_facet_id [⟨some "CA", none, none⟩, ⟨some "AZ", none, none⟩] ["AZ", "CA"] [] =
      some (some "CA")
    ∧ resolve_claimOrder [⟨some "CA", none, none⟩, ⟨some "AZ", none, none⟩] ["AZ", "CA"] [] =
      some (some "AZ")
    ∧ choose_facet_id [⟨some "X1", some "beta", none⟩, ⟨some "X2", some "alpha", none⟩] []
        ["alpha", "beta"] = some (some "X1")
    ∧ resolve_claimOrder [⟨some "X1", some "beta", none⟩, ⟨some "X2", some "alpha", none⟩] []
        ["alpha", "beta"] = some (some "X2") :=
  ⟨rfl, rfl, rfl, rfl⟩

/-- C2 amended: resolve keeps the stage order (exact before substring,
none when neither matches), but within each stage it scans candidates in
candidate-list order and returns the first candidate matching ANY entry
of the relevant preference list (case-insensitively; the substring stage
tests every lowercased needle against the space-joined lowercased id,
name and alias blob).  Preference-list position never breaks a tie. -/
theorem choose_facet_id_candidate_order (fv : List Facet) (pids needles : List String) :
    choose_facet_id fv pids needles =
      match fv.find? (fun f => (pids.map pyUpper).contains (pyUpper (f.id.getD ""))) with
      | some f => some f.id
      | none =>
        match fv.find? (fun f => (needles.map pyLower).any (fun n => strContains (facetBlob f) n)) with
        | some f => some f.id
        | none => none := by
  cases fv with
  | nil => rfl
  | cons f rest =>
    simp only [choose_facet_id, List.isEmpty_cons, Bool.false_eq_true, if_false]
    rw [facetExactLoop_eq_find, facetSubLoop_eq_find]
    cases (f :: rest).find? (fun g => (pids.map pyUpper).contains (pyUpper (g.id.getD ""))) with
    | some g => rfl
    | none =>
      cases (f :: rest).find?
          (fun g => (needles.map pyLower).any (fun n => strContains (facetBlob g) n)) with
      | some g => rfl
      | none => rfl

/-- C3 counterexample: the strip-and-lowercase normalization is applied
when picking the metadata data column (NET-GENERATION matches the
preference net-generation), but not when picking a facet value: A-Z and
AZ are identical under that normalization, yet choose_facet_id finds no
match for them. -/
theorem facet_normalization_differs_cex :
    pick_generation_data_column ["NET-GENERATION"] = "NET-GENERATION"
    ∧ normalize_key "A-Z" = normalize_key "AZ"
    ∧ choose_facet_id [⟨some "A-Z", none, none⟩] ["AZ"] [] = none :=
  ⟨rfl, rfl, rfl⟩

/-- C3 amended: the strip-all-non-alphanumerics-and-lowercase
normalization (normalize_key) is used only by the metadata data-field
picker; the facet-value resolver compares after pure case folding, so a
single-candidate exact resolution succeeds exactly when the uppercased
strings coincide, while a key whose normalize_key image is netgeneration
is picked by the data-field picker whatever its punctuation and case. -/
theorem normalization_split_between_resolvers (id p k : String)
    (h : normalize_key k = "netgeneration") :
    choose_facet_id [⟨some id, none, none⟩] [p] [] =
      (if pyUpper p == pyUpper id then some (some id) else none)
    ∧ pick_generation_data_column [k] = k := by
  constructor
  · by_cases hc : (pyUpper p == pyUpper id) = true
    · have heq : pyUpper p = pyUpper id := by simpa using hc
      simp [choose_facet_id, facetExactLoop, facetSubLoop, List.contains, hc, heq]
    · have hne : ¬(pyUpper id = pyUpper p) := by
        intro e
        exact hc (by simp [e])
      simp [choose_facet_id, facetExactLoop, facetSubLoop, List.contains, hc, hne]
  · have h1 : normalize_key "net-generation" = "netgeneration" := rfl
    have hfind : List.find? (fun kn => kn.2 == "netgeneration") [(k, normalize_key k)] =
        some (k, normalize_key k) := by
      simp only [List.find?]
      simp [h]
    simp only [pick_generation_data_column, List.map_cons, List.map_nil, genExactLoop, h1, hfind]

/-- Witness for the amended C3 at punctuation-bearing concrete strings. -/
theorem normalization_split_between_resolvers_witness :
    normalize_key "NET-GENERATION" = "netgeneration"
    ∧ (choose_facet_id [⟨some "A-Z", none, none⟩] ["az"] [] =
        (if pyUpper "az" == pyUpper "A-Z" then some (some "A-Z") else none)
       ∧ pick_generation_data_column ["NET-GENERATION"] = "NET-GENERATION") :=
  ⟨rfl, normalization_split_between_resolvers "A-Z" "az" "NET-GENERATION" rfl⟩

/-! ## Helper lemmas for dict assignment and lookup -/

/-- Looking up the assigned key after a dict assignment yields the new
value. -/
theorem lookupJ_setKey_self (l : List (String × JVal)) (k : String) (v : JVal) :
    lookupJ (setKey l k v) k = some v := by
  induction l with
  | nil => simp [setKey, lookupJ]
  | cons kv rest ih =>
    obtain ⟨k', v'⟩ := kv
    by_cases h : (k' == k) = true
    · simp [setKey, lookupJ, h]
    · simp [setKey, lookupJ, h, ih]

/-- A dict assignment leaves every other key unchanged. -/
theorem lookupJ_setKey_ne (l : List (String × JVal)) (k k2 : String) (v : JVal)
    (h : (k == k2) = false) : lookupJ (setKey l k v) k2 = lookupJ l k2 := by
  induction l with
  | nil => simp [setKey, lookupJ, h]
  | cons kv rest ih =>
    obtain ⟨k', v'⟩ := kv
    by_cases h2 : (k' == k) = true
    · have hk : k' = k := by simpa using h2
      subst hk
      simp [setKey, lookupJ, h]
    · simp [setKey, lookupJ, h2, ih]

/-- A successful lookup means the key is present in the pair list. -/
theorem lookupJ_some_key_present (l : List (String × JVal)) (c : String) (v : JVal)
    (h : lookupJ l c = some v) : l.any (fun kv => kv.1 == c) = true := by
  induction l with
  | nil => simp [lookupJ] at h
  | cons kv rest ih =>
    obtain ⟨k', v'⟩ := kv
    by_cases h2 : (k' == c) = true
    · simp [h2]
    · simp only [lookupJ] at h
      rw [if_neg (by simpa using h2)] at h
      simp [h2, ih h]

/-- The geometry projection of the record normalizer does not disturb
any key other than lon and lat. -/
theorem rowOfFeature_lookup_other (f : Feature) (c : String)
    (hc1 : ("lon" == c) = false) (hc2 : ("lat" == c) = false) :
    lookupJ (rowOfFeature f) c = lookupJ f.attributes c := by
  simp only [rowOfFeature]
  cases hx : lookupJ (f.geometry.getD []) "x" with
  | none => rfl
  | some xv =>
    cases hy : lookupJ (f.geometry.getD []) "y" with
    | none => rfl
    | some yv =>
      show lookupJ (setKey (setKey f.attributes "lon" xv) "lat" yv) c = lookupJ f.attributes c
      rw [lookupJ_setKey_ne _ _ _ _ hc2, lookupJ_setKey_ne _ _ _ _ hc1]

/-- A feature whose geometry carries both x and y has them projected
into the lon and lat fields of its normalized row. -/
theorem rowOfFeature_geom (f : Feature) (xv yv : JVal)
    (hx : lookupJ (f.geometry.getD []) "x" = some xv)
    (hy : lookupJ (f.geometry.getD []) "y" = some yv) :
    lookupJ (rowOfFeature f) "lon" = some xv ∧ lookupJ (rowOfFeature f) "lat" = some yv := by
  simp only [rowOfFeature]
  rw [hx, hy]
  show lookupJ (setKey (setKey f.attributes "lon" xv) "lat" yv) "lon" = some xv
    ∧ lookupJ (setKey (setKey f.attributes "lon" xv) "lat" yv) "lat" = some yv
  constructor
  · rw [lookupJ_setKey_ne _ _ _ _ (by decide)]
    exact lookupJ_setKey_self _ _ _
  · exact lookupJ_setKey_self _ _ _

/-- C8: normalization projects a numeric geometry x into lon and y into
lat on the row of every feature carrying both; and on every feature
carrying integer YEAR, MONTH and DAY fields it synthesizes the composite
crash_date field, which is the composed date when the components form a
valid calendar date and null (not an error) otherwise. -/
theorem features_to_df_geometry_and_date (features : List Feature) (i : Nat) (f : Feature)
    (hf : features[i]? = some f) :
    ∃ row, (features_to_df features)[i]? = some row
      ∧ (∀ xv yv, lookupJ (f.geometry.getD []) "x" = some xv →
           lookupJ (f.geometry.getD []) "y" = some yv →
           lookupJ row "lon" = some xv ∧ lookupJ row "lat" = some yv)
      ∧ (∀ y m d : Int, lookupJ f.attributes "YEAR" = some (JVal.num y) →
           lookupJ f.attributes "MONTH" = some (JVal.num m) →
           lookupJ f.attributes "DAY" = some (JVal.num d) →
           lookupJ row "crash_date" =
             some (if validDate y m d then JVal.date y m d else JVal.null)) := by
  have hrow : (features.map rowOfFeature)[i]? = some (rowOfFeature f) := by
    rw [List.getElem?_map, hf]
    rfl
  by_cases hcols : (hasCol (features.map rowOfFeature) "YEAR"
      && hasCol (features.map rowOfFeature) "MONTH"
      && hasCol (features.map rowOfFeature) "DAY") = true
  · refine ⟨setKey (rowOfFeature f) "crash_date" (mkCrashDate (rowOfFeature f)), ?_, ?_, ?_⟩
    · simp only [features_to_df]
      rw [if_pos hcols, List.getElem?_map, hrow]
      rfl
    · intro xv yv hx hy
      have hg := rowOfFeature_geom f xv yv hx hy
      constructor
      · rw [lookupJ_setKey_ne _ _ _ _ (by decide)]
        exact hg.1
      · rw [lookupJ_setKey_ne _ _ _ _ (by decide)]
        exact hg.2
    · intro y m d hY hM hD
      rw [lookupJ_setKey_self]
      have e1 : lookupJ (rowOfFeature f) "YEAR" = some (JVal.num y) := by
        rw [rowOfFeature_lookup_other f _ (by decide) (by decide)]
        exact hY
      have e2 : lookupJ (rowOfFeature f) "MONTH" = some (JVal.num m) := by
        rw [rowOfFeature_lookup_other f _ (by decide) (by decide)]
        exact hM
      have e3 : lookupJ (rowOfFeature f) "DAY" = some (JVal.num d) := by
        rw [rowOfFeature_lookup_other f _ (by decide) (by decide)]
        exact hD
      simp [mkCrashDate, e1, e2, e3]
  · refine ⟨rowOfFeature f, ?_, ?_, ?_⟩
    · simp only [features_to_df]
      rw [if_neg hcols]
      exact hrow
    · intro xv yv hx hy
      exact rowOfFeature_geom f xv yv hx hy
    · intro y m d hY hM hD
      exfalso
      have hmem : rowOfFeature f ∈ features.map rowOfFeature := List.getElem?_mem hrow
      have e1 : lookupJ (rowOfFeature f) "YEAR" = some (JVal.num y) := by
        rw [rowOfFeature_lookup_other f _ (by decide) (by decide)]
        exact hY
      have e2 : lookupJ (rowOfFeature f) "MONTH" = some (JVal.num m) := by
        rw [rowOfFeature_lookup_other f _ (by decide) (by decide)]
        exact hM
      have e3 : lookupJ (rowOfFeature f) "DAY" = some (JVal.num d) := by
        rw [rowOfFeature_lookup_other f _ (by decide) (by decide)]
        exact hD
      have aY : hasCol (features.map rowOfFeature) "YEAR" = true := by
        unfold hasCol
        rw [List.any_eq_true]
        exact ⟨_, hmem, lookupJ_some_key_present _ _ _ e1⟩
      have aM : hasCol (features.map rowOfFeature) "MONTH" = true := by
        unfold hasCol
        rw [List.any_eq_true]
        exact ⟨_, hmem, lookupJ_some_key_present _ _ _ e2⟩
      have aD : hasCol (features.map rowOfFeature) "DAY" = true := by
        unfold hasCol
        rw [List.any_eq_true]
        exact ⟨_, hmem, lookupJ_some_key_present _ _ _ e3⟩
      exact hcols (by simp [aY, aM, aD])

/-- A concrete feature: geometry with numeric x and y, and an invalid
calendar date in its year, month and day fields. -/
def c8Feature : Feature :=
  ⟨[("YEAR", JVal.num 2022), ("MONTH", JVal.num 2), ("DAY", JVal.num 30)],
   some [("x", JVal.num (-112)), ("y", JVal.num 33)]⟩

/-- Witness for C8 at a concrete feature with geometry and the invalid
date February 30. -/
theorem features_to_df_geometry_and_date_witness :
    lookupJ ((features_to_df [c8Feature]).headD []) "lon" = some (JVal.num (-112))
    ∧ lookupJ ((features_to_df [c8Feature]).headD []) "lat" = some (JVal.num 33)
    ∧ lookupJ ((features_to_df [c8Feature]).headD []) "crash_date" = some JVal.null := by
  obtain ⟨row, hrow, hgeo, hdate⟩ := features_to_df_geometry_and_date [c8Feature] 0 c8Feature rfl
  have hhead : (features_to_df [c8Feature]).headD [] = row := by
    cases hdf : features_to_df [c8Feature] with
    | nil =>
      rw [hdf] at hrow
      exact absurd hrow (by simp)
    | cons a t =>
      rw [hdf] at hrow
      have ha : a = row := by simpa using hrow
      rw [List.headD_cons, ha]
  obtain ⟨h1, h2⟩ := hgeo (JVal.num (-112)) (JVal.num 33) rfl rfl
  have h3 := hdate 2022 2 30 rfl rfl rfl
  rw [show validDate 2022 2 30 = false from rfl] at h3
  rw [hhead]
  exact ⟨h1, h2, by simpa using h3⟩

/-- C5 counterexample: an empty FIRMS result (a header-only CSV body) is
treated as an error by fetch_fires, which raises a RuntimeError rather
than yielding an empty sequence. -/
theorem fetch_fires_empty_result_error_cex :
    fetch_fires "k" "VIIRS_SNPP_NRT" none 3 none "latitude,longitude\n" =
      (Except.error "No detections returned. Try increasing --days or changing --source/--bbox.",
       some (build_url "k" "VIIRS_SNPP_NRT" "world" 3 none)) :=
  rfl

/-- C5 amended: the ArcGIS enumerator returns an empty sequence
immediately on a zero total, issuing no page request and raising
nothing; but the wildfire fetch is different: it raises a RuntimeError
whenever the parsed CSV carries no data rows. -/
theorem empty_result_handling_split :
    (∀ (whereC outFields : String) (pf : PageParams → List Feature),
      fetch_all_features whereC outFields 0 pf = ([], []))
    ∧ (∀ (mapkey source : String) (bbox : Option String) (days : Int) (date : Option String)
        (body hdr : String),
        1 ≤ days → days ≤ 10 → looksNonCsv body = false →
        parseFiresCsv body = Except.ok ⟨hdr, []⟩ →
        (fetch_fires mapkey source bbox days date body).1 =
          Except.error "No detections returned. Try increasing --days or changing --source/--bbox.") := by
  constructor
  · intro whereC outFields pf
    rfl
  · intro mapkey source bbox days date body hdr h1 h2 hcsv hparse
    unfold fetch_fires
    rw [if_neg (by omega)]
    simp [hcsv, hparse]

/-- Witness for the amended C5: the ArcGIS side at a zero count and the
wildfire side at a header-only body. -/
theorem empty_result_handling_split_witness :
    fetch_all_features "STATE = 4 AND YEAR = 2022" "*" 0 (fun _ => []) = ([], [])
    ∧ (fetch_fires "k" "S" none 3 none "h\n").1 =
      Except.error "No detections returned. Try increasing --days or changing --source/--bbox." :=
  ⟨empty_result_handling_split.1 "STATE = 4 AND YEAR = 2022" "*" (fun _ => []),
   empty_result_handling_split.2 "k" "S" none 3 none "h\n" "h" (by decide) (by decide) rfl rfl⟩

/-! ## Helper lemmas for the merge-by-period map -/

/-- Reading a key after a Map.set: the new value at the set key, the old
map elsewhere. -/
theorem mapGet_mapSet (m : List (String × MRow)) (k k2 : String) (v : MRow) :
    mapGet (mapSet m k v) k2 = if k = k2 then some v else mapGet m k2 := by
  induction m with
  | nil =>
    by_cases h : k = k2
    · simp [mapSet, mapGet, h]
    · simp [mapSet, mapGet, h]
  | cons kv rest ih =>
    obtain ⟨k', v'⟩ := kv
    by_cases h1 : k' = k
    · subst h1
      by_cases h2 : k' = k2
      · subst h2
        simp [mapSet, mapGet]
      · simp [mapSet, mapGet, h2]
    · by_cases h3 : k' = k2
      · subst h3
        have h4 : ¬ k = k' := fun e => h1 e.symm
        simp [mapSet, mapGet, h1, h4]
      · simp [mapSet, mapGet, h1, h3, ih]

/-- Map.set only ever adds its own key to the key list. -/
theorem mem_keys_mapSet (m : List (String × MRow)) (k p : String) (v : MRow) :
    p ∈ (mapSet m k v).map Prod.fst ↔ p = k ∨ p ∈ m.map Prod.fst := by
  induction m with
  | nil => simp [mapSet]
  | cons kv rest ih =>
    obtain ⟨k', v'⟩ := kv
    by_cases h : k' = k
    · subst h
      simp [mapSet]
    · simp [mapSet, h, ih]
      tauto

/-- Map.set keeps the keys pairwise distinct. -/
theorem nodup_keys_mapSet (m : List (String × MRow)) (k : String) (v : MRow)
    (h : (m.map Prod.fst).Nodup) : ((mapSet m k v).map Prod.fst).Nodup := by
  induction m with
  | nil => simp [mapSet]
  | cons kv rest ih =>
    obtain ⟨k', v'⟩ := kv
    simp only [List.map_cons, List.nodup_cons] at h
    by_cases hk : k' = k
    · subst hk
      simp [mapSet, List.nodup_cons, h.1, h.2]
    · have ih2 := ih h.2
      simp only [mapSet]
      rw [if_neg (by simpa using hk)]
      simp only [List.map_cons, List.nodup_cons]
      refine ⟨?_, ih2⟩
      rw [mem_keys_mapSet]
      push_neg
      exact ⟨hk, h.1⟩

/-- A missing key is exactly an absent key. -/
theorem mapGet_none_iff (m : List (String × MRow)) (p : String) :
    mapGet m p = none ↔ p ∉ m.map Prod.fst := by
  induction m with
  | nil => simp [mapGet]
  | cons kv rest ih =>
    obtain ⟨k', v'⟩ := kv
    by_cases h : k' = p
    · subst h
      simp [mapGet]
    · have h2 : ¬ p = k' := fun e => h e.symm
      simp [mapGet, h, h2, ih]

/-- The keys after folding the retail rows in are the old keys plus the
retail periods. -/
theorem mem_keys_retailFold (rs : List RetailRow) :
    ∀ (m : List (String × MRow)) (p : String),
      p ∈ ((rs.foldl retailStep m).map Prod.fst) ↔
        p ∈ m.map Prod.fst ∨ p ∈ rs.map RetailRow.period := by
  induction rs with
  | nil =>
    intro m p
    simp
  | cons r rest ih =>
    intro m p
    simp only [List.foldl_cons, List.map_cons, List.mem_cons]
    rw [ih]
    simp only [retailStep]
    rw [mem_keys_mapSet]
    tauto

/-- The keys after folding the generation rows in are the old keys plus
the generation periods. -/
theorem mem_keys_genFold (gs : List GenRow) :
    ∀ (m : List (String × MRow)) (p : String),
      p ∈ ((gs.foldl genStep m).map Prod.fst) ↔
        p ∈ m.map Prod.fst ∨ p ∈ gs.map GenRow.period := by
  induction gs with
  | nil =>
    intro m p
    simp
  | cons g rest ih =>
    intro m p
    simp only [List.foldl_cons, List.map_cons, List.mem_cons]
    rw [ih]
    simp only [genStep]
    rw [mem_keys_mapSet]
    tauto

/-- Folding the retail rows keeps the keys pairwise distinct. -/
theorem nodup_keys_retailFold (rs : List RetailRow) :
    ∀ (m : List (String × MRow)), (m.map Prod.fst).Nodup →
      (((rs.foldl retailStep m)).map Prod.fst).Nodup := by
  induction rs with
  | nil => intro m hm; exact hm
  | cons r rest ih =>
    intro m hm
    exact ih (retailStep m r) (nodup_keys_mapSet m r.period _ hm)

/-- Folding the generation rows keeps the keys pairwise distinct. -/
theorem nodup_keys_genFold (gs : List GenRow) :
    ∀ (m : List (String × MRow)), (m.map Prod.fst).Nodup →
      (((gs.foldl genStep m)).map Prod.fst).Nodup := by
  induction gs with
  | nil => intro m hm; exact hm
  | cons g rest ih =>
    intro m hm
    exact ih (genStep m g) (nodup_keys_mapSet m g.period _ hm)

/-- Folding the generation rows does not touch a period outside the
generation key set. -/
theorem mapGet_genFold_not_mem (gs : List GenRow) :
    ∀ (m : List (String × MRow)) (p : String), p ∉ gs.map GenRow.period →
      mapGet (gs.foldl genStep m) p = mapGet m p := by
  induction gs with
  | nil => intro m p _; rfl
  | cons g rest ih =>
    intro m p hp
    simp only [List.map_cons, List.mem_cons] at hp
    push_neg at hp
    simp only [List.foldl_cons]
    rw [ih (genStep m g) p hp.2]
    simp only [genStep]
    rw [mapGet_mapSet]
    rw [if_neg (fun e => hp.1 e.symm)]

/-- Every row stored while folding the retail rows carries its own key
as the period and a null generation field. -/
theorem retailFold_inv (rs : List RetailRow) :
    ∀ (m : List (String × MRow)),
      (∀ p row, mapGet m p = some row → row.period = p ∧ row.generation = none) →
      ∀ p row, mapGet (rs.foldl retailStep m) p = some row →
        row.period = p ∧ row.generation = none := by
  induction rs with
  | nil => intro m hm; exact hm
  | cons r rest ih =>
    intro m hm
    refine ih (retailStep m r) ?_
    intro p row h
    simp only [retailStep] at h
    rw [mapGet_mapSet] at h
    by_cases hp : r.period = p
    · rw [if_pos hp] at h
      cases h
      exact ⟨hp, rfl⟩
    · rw [if_neg hp] at h
      exact hm p row h

/-- Every row stored while folding the generation rows carries its own
key as the period, and keeps the retail value fields null at any period
satisfying a predicate that already forced them null (in use: a period
with no retail entry). -/
theorem genFold_inv (gs : List GenRow) (S : String → Prop) :
    ∀ (m : List (String × MRow)),
      (∀ p row, mapGet m p = some row → row.period = p ∧
        (S p → row.sales = none ∧ row.revenue = none ∧ row.price = none)) →
      ∀ p row, mapGet (gs.foldl genStep m) p = some row → row.period = p ∧
        (S p → row.sales = none ∧ row.revenue = none ∧ row.price = none) := by
  induction gs with
  | nil => intro m hm; exact hm
  | cons g rest ih =>
    intro m hm
    refine ih (genStep m g) ?_
    intro p row h
    simp only [genStep] at h
    rw [mapGet_mapSet] at h
    by_cases hp : g.period = p
    · rw [if_pos hp] at h
      cases h
      cases hg : mapGet m g.period with
      | none =>
        constructor
        · simp [hg, hp]
        · intro _
          simp [hg]
      | some c =>
        have hc := hm g.period c hg
        constructor
        · simp [hg, hc.1, hp]
        · intro hS
          have hf := hc.2 (hp ▸ hS)
          simp [hg, hf.1, hf.2.1, hf.2.2]
    · rw [if_neg hp] at h
      exact hm p row h

/-- Reading the map back over a list of keys it contains, one row per
key, each row keyed by its own period. -/
theorem filterMap_mapGet_keys (m2 : List (String × MRow)) :
    ∀ (ps : List String),
      (∀ p, p ∈ ps → ∃ row, mapGet m2 p = some row ∧ row.period = p) →
      ((ps.filterMap (mapGet m2)).map MRow.period) = ps := by
  intro ps
  induction ps with
  | nil => intro _; rfl
  | cons p rest ih =>
    intro hall
    obtain ⟨row, hrow, hper⟩ := hall p (List.mem_cons_self p rest)
    rw [List.filterMap_cons, hrow]
    simp only [List.map_cons, hper]
    rw [ih (fun q hq => hall q (List.mem_cons_of_mem p hq))]

/-- Totality of the lexicographic character comparison. -/
theorem charListLe_total : ∀ (l1 l2 : List Char),
    charListLe l1 l2 = true ∨ charListLe l2 l1 = true := by
  intro l1
  induction l1 with
  | nil =>
    intro l2
    left
    rfl
  | cons a as ih =>
    intro l2
    cases l2 with
    | nil =>
      right
      rfl
    | cons b bs =>
      by_cases hab : a = b
      · subst hab
        rcases ih bs with h | h
        · left
          simp [charListLe, h]
        · right
          simp [charListLe, h]
      · rcases lt_or_gt_of_ne hab with h | h
        · left
          simp [charListLe, hab, h]
        · right
          have hba : ¬ b = a := fun e => hab e.symm
          simp [charListLe, hba, h]

/-- Transitivity of the lexicographic character comparison. -/
theorem charListLe_trans : ∀ (l1 l2 l3 : List Char),
    charListLe l1 l2 = true → charListLe l2 l3 = true → charListLe l1 l3 = true := by
  intro l1
  induction l1 with
  | nil => intro l2 l3 _ _; rfl
  | cons a as ih =>
    intro l2 l3 h12 h23
    cases l2 with
    | nil => simp [charListLe] at h12
    | cons b bs =>
      cases l3 with
      | nil => simp [charListLe] at h23
      | cons c cs =>
        by_cases hab : a = b
        · subst hab
          by_cases hbc : a = c
          · subst hbc
            simp only [charListLe, if_pos rfl] at h12 h23 ⊢
            exact ih bs cs h12 h23
          · simp only [charListLe, if_neg hbc] at h23 ⊢
            exact h23
        · simp only [charListLe, if_neg hab] at h12
          by_cases hbc : b = c
          · subst hbc
            simp only [charListLe, if_neg hab]
            exact h12
          · simp only [charListLe, if_neg hbc] at h23
            simp only [decide_eq_true_eq] at h12 h23
            have hac : a < c := lt_trans h12 h23
            have hne : ¬ a = c := ne_of_lt hac
            simp only [charListLe, if_neg hne, decide_eq_true_eq]
            exact hac

instance : IsTotal String (fun a b => strLe a b = true) :=
  ⟨fun a b => charListLe_total a.toList b.toList⟩

instance : IsTrans String (fun a b => strLe a b = true) :=
  ⟨fun a b c h1 h2 => charListLe_trans a.toList b.toList c.toList h1 h2⟩

/-- C7: merging two series with disjoint key sets produces exactly one
row per key of the union (no row dropped, no key repeated), ordered by
key ascending, and on every merged row the fields of the series that did
not contribute that key are explicit nulls: a retail-only key has a null
generation field and a generation-only key has null sales, revenue and
price fields. -/
theorem merge_disjoint_series (retail : List RetailRow) (gen : List GenRow)
    (hdisj : ∀ p, p ∈ retail.map RetailRow.period → p ∉ gen.map GenRow.period) :
    ((mergeByPeriod retail gen).map MRow.period).Nodup
    ∧ (∀ p, p ∈ (mergeByPeriod retail gen).map MRow.period ↔
        (p ∈ retail.map RetailRow.period ∨ p ∈ gen.map GenRow.period))
    ∧ List.Sorted (fun a b => strLe a b = true) ((mergeByPeriod retail gen).map MRow.period)
    ∧ (∀ row, row ∈ mergeByPeriod retail gen →
        (row.period ∈ retail.map RetailRow.period → row.generation = none)
        ∧ (row.period ∈ gen.map GenRow.period →
            row.sales = none ∧ row.revenue = none ∧ row.price = none)) := by
  have hm1inv : ∀ p row, mapGet (retail.foldl retailStep []) p = some row →
      row.period = p ∧ row.generation = none :=
    retailFold_inv retail [] (by intro p row h; simp [mapGet] at h)
  have hkeys1 : ∀ p, p ∈ ((retail.foldl retailStep []).map Prod.fst) ↔
      p ∈ retail.map RetailRow.period := by
    intro p
    rw [mem_keys_retailFold]
    simp
  have hgeninv : ∀ p row, mapGet (gen.foldl genStep (retail.foldl retailStep [])) p = some row →
      row.period = p ∧ (mapGet (retail.foldl retailStep []) p = none →
        row.sales = none ∧ row.revenue = none ∧ row.price = none) :=
    genFold_inv gen (fun q => mapGet (retail.foldl retailStep []) q = none)
      (retail.foldl retailStep []) (by
        intro p row h
        refine ⟨(hm1inv p row h).1, ?_⟩
        intro hS
        rw [h] at hS
        cases hS)
  have hkeys2 : ∀ p, p ∈ ((gen.foldl genStep (retail.foldl retailStep [])).map Prod.fst) ↔
      (p ∈ retail.map RetailRow.period ∨ p ∈ gen.map GenRow.period) := by
    intro p
    rw [mem_keys_genFold, hkeys1]
  have hnodup2 : ((gen.foldl genStep (retail.foldl retailStep [])).map Prod.fst).Nodup :=
    nodup_keys_genFold gen _ (nodup_keys_retailFold retail [] (by simp))
  have hperm := List.perm_insertionSort (fun a b => strLe a b = true)
      ((gen.foldl genStep (retail.foldl retailStep [])).map Prod.fst)
  have hsorted := List.sorted_insertionSort (fun a b => strLe a b = true)
      ((gen.foldl genStep (retail.foldl retailStep [])).map Prod.fst)
  have hunfold : mergeByPeriod retail gen =
      (List.insertionSort (fun a b => strLe a b = true)
        ((gen.foldl genStep (retail.foldl retailStep [])).map Prod.fst)).filterMap
        (mapGet (gen.foldl genStep (retail.foldl retailStep []))) := rfl
  have hallkeys : ∀ p, p ∈ List.insertionSort (fun a b => strLe a b = true)
        ((gen.foldl genStep (retail.foldl retailStep [])).map Prod.fst) →
      ∃ row, mapGet (gen.foldl genStep (retail.foldl retailStep [])) p = some row
        ∧ row.period = p := by
    intro p hp
    have hp2 : p ∈ (gen.foldl genStep (retail.foldl retailStep [])).map Prod.fst :=
      hperm.subset hp
    cases hg : mapGet (gen.foldl genStep (retail.foldl retailStep [])) p with
    | none =>
      rw [mapGet_none_iff] at hg
      exact absurd hp2 hg
    | some row => exact ⟨row, rfl, (hgeninv p row hg).1⟩
  have hmapper : ((mergeByPeriod retail gen).map MRow.period) =
      List.insertionSort (fun a b => strLe a b = true)
        ((gen.foldl genStep (retail.foldl retailStep [])).map Prod.fst) := by
    rw [hunfold]
    exact filterMap_mapGet_keys _ _ hallkeys
  refine ⟨?_, ?_, ?_, ?_⟩
  · rw [hmapper]
    exact hperm.nodup_iff.mpr hnodup2
  · intro p
    rw [hmapper, hperm.mem_iff, hkeys2]
  · rw [hmapper]
    exact hsorted
  · intro row hrow
    rw [hunfold, List.mem_filterMap] at hrow
    obtain ⟨p, hp, hget⟩ := hrow
    have hper := (hgeninv p row hget).1
    constructor
    · intro hretail
      rw [hper] at hretail
      have hnotgen := hdisj p hretail
      have huntouched := mapGet_genFold_not_mem gen (retail.foldl retailStep []) p hnotgen
      rw [huntouched] at hget
      exact (hm1inv p row hget).2
    · intro hgen
      rw [hper] at hgen
      have hnotretail : p ∉ retail.map RetailRow.period := fun hr => hdisj p hr hgen
      have hnone : mapGet (retail.foldl retailStep []) p = none := by
        rw [mapGet_none_iff, hkeys1]
        exact hnotretail
      exact (hgeninv p row hget).2 hnone

/-- Witness for C7 at a one-row retail series and a one-row generation
series with disjoint period keys. -/
theorem merge_disjoint_series_witness :
    ((mergeByPeriod [⟨"2021-01", some (JVal.num 100), none, none⟩]
        [⟨"2021-02", some (JVal.num 50)⟩]).map MRow.period).Nodup :=
  (merge_disjoint_series [⟨"2021-01", some (JVal.num 100), none, none⟩]
      [⟨"2021-02", some (JVal.num 50)⟩] (by
        intro p hp
        simp only [List.map_cons, List.map_nil, List.mem_cons, List.not_mem_nil, or_false] at hp
        subst hp
        decide)).1
